import Mathlib

/-!
Shallow embedding of the schreiber-batch-inventory core: the batch ledger
(batches, consumption records, reservations) and its operations
(create, consume, soft delete, reserve, release, queries), translated from
`app/domain/models.py`, `app/repositories/batch_repository.py`,
`app/domain/services/batch_service.py` and the request-validation boundary in
`app/schemas/*.py`.  Timestamps are modelled as integer seconds (UTC);
volumes as rationals.  The relational store is modelled as explicit lists of
rows; each operation returns its outcome together with the committed
post-state (error paths commit nothing, mirroring raise-before-mutate and
transaction rollback in the source).
-/

deriving instance DecidableEq for Except

namespace BatchInventory

/-- A row of the `batches` table (`app/domain/models.py`, class `Batch`). -/
structure Batch where
  id : Nat
  batch_code : String
  received_at : Int
  shelf_life_days : Int
  expiry_date : Int
  volume_liters : ℚ
  fat_percent : ℚ
  version : Nat
  deleted_at : Option Int
  created_at : Int
  updated_at : Int
deriving DecidableEq

/-- A row of the `consumption_records` table (`app/domain/models.py`,
class `ConsumptionRecord`). -/
structure ConsumptionRecord where
  id : Nat
  batch_id : Nat
  qty : ℚ
  order_id : Option String
  consumed_at : Int
deriving DecidableEq

/-- Modelled from the spec: the `BatchReservation` child row of a batch
(§3: `reserved_qty` > 0, optional `purpose`, `reserved_at` set at creation,
`released_at` nullable, null = active).  The class definition itself is not
under `src/` (only its callers, schema, tests and migration are). -/
structure BatchReservation where
  id : Nat
  batch_id : Nat
  reserved_qty : ℚ
  purpose : Option String
  reserved_at : Int
  released_at : Option Int
deriving DecidableEq

/-- The committed state of the relational store. -/
structure Store where
  batches : List Batch
  consumptions : List ConsumptionRecord
  reservations : List BatchReservation
deriving DecidableEq

/-- The domain error taxonomy (`app/domain/exceptions.py`), plus the
request-validation rejection produced at the schema boundary. -/
inductive BatchError where
  | validation : BatchError
  | notFound (batch_id : Nat) : BatchError
  | deleted (batch_id : Nat) : BatchError
  | expired (batch_id : Nat) (expiry_date : Int) : BatchError
  | insufficientVolume (batch_id : Nat) (available requested : ℚ) : BatchError
  | duplicateCode (batch_code : String) : BatchError
  | reservationNotFound (reservation_id : Nat) : BatchError
  | alreadyReleased (reservation_id : Nat) : BatchError
deriving DecidableEq

/-- The consumption records belonging to one batch (the ORM relationship
`Batch.consumption_records`). -/
def recordsFor (s : Store) (batch_id : Nat) : List ConsumptionRecord :=
  s.consumptions.filter (fun r => r.batch_id == batch_id)

/-- The reservation rows belonging to one batch. -/
def reservationsFor (s : Store) (batch_id : Nat) : List BatchReservation :=
  s.reservations.filter (fun r => r.batch_id == batch_id)

/-- Total quantity of a list of consumption records. -/
def consumedSum (rs : List ConsumptionRecord) : ℚ :=
  (rs.map (fun r => r.qty)).sum

/-- Python's `max(0.0, x)` clamp, written so that it evaluates. -/
def max0 (x : ℚ) : ℚ :=
  if x < 0 then 0 else x

/-- `Batch.available_liters` (`models.py` lines 90-102): total volume when
there are no consumption records, else `max(0, volume - Σ qty)`. -/
def Batch.available_liters (b : Batch) (rs : List ConsumptionRecord) : ℚ :=
  if rs.isEmpty then b.volume_liters
  else max0 (b.volume_liters - consumedSum rs)

/-- `Batch.is_expired` (`models.py` lines 104-111): `now > expiry_date`
(timezone normalization collapses in the integer-seconds model). -/
def Batch.is_expired (b : Batch) (now : Int) : Bool :=
  decide (b.expiry_date < now)

/-- `Batch.is_deleted` (`models.py` lines 113-116). -/
def Batch.is_deleted (b : Batch) : Bool :=
  b.deleted_at.isSome

/-- Modelled from the spec: a reservation is active while `released_at` is
null (§3); the `is_active` property is not under `src/`. -/
def BatchReservation.is_active (r : BatchReservation) : Bool :=
  r.released_at.isNone

/-- Modelled from the spec: `reserved_liters = Σ active_reservation.reserved_qty`
over reservations with `released_at == null` (§3); the property is not under
`src/`. -/
def reserved_liters (rs : List BatchReservation) : ℚ :=
  ((rs.filter (fun r => r.released_at.isNone)).map (fun r => r.reserved_qty)).sum

/-- Modelled from the spec: `free_liters = max(0, available_liters −
reserved_liters)` (§3); the property is not under `src/`. -/
def Batch.free_liters (b : Batch) (crs : List ConsumptionRecord)
    (rs : List BatchReservation) : ℚ :=
  max0 (b.available_liters crs - reserved_liters rs)

/-- Fresh primary key for a new batch row (store auto-increment). -/
def nextBatchId (s : Store) : Nat :=
  (s.batches.map (fun b => b.id)).foldr max 0 + 1

/-- Fresh primary key for a new consumption row (store auto-increment). -/
def nextConsumptionId (s : Store) : Nat :=
  (s.consumptions.map (fun r => r.id)).foldr max 0 + 1

/-- Fresh primary key for a new reservation row (store auto-increment). -/
def nextReservationId (s : Store) : Nat :=
  (s.reservations.map (fun r => r.id)).foldr max 0 + 1

/-- The batch-code pattern `^SCH-\d{8}-\d{4}$` checked at the request
boundary (`app/schemas/batch.py`, `BatchCreateRequest.batch_code`) and by
the `BatchCode` value object (`app/domain/value_objects.py`). -/
def batchCodeMatches (code : String) : Bool :=
  match code.toList with
  | 'S' :: 'C' :: 'H' :: '-' :: rest =>
      let d8 := rest.take 8
      let rest2 := rest.drop 8
      d8.length == 8 && d8.all Char.isDigit &&
        match rest2 with
        | '-' :: d4 => d4.length == 4 && d4.all Char.isDigit
        | _ => false
  | _ => false

/-- `createBatch`: request validation (`BatchCreateRequest`: pattern,
`shelf_life_days ∈ [1,30]`, `volume_liters > 0`, `fat_percent ∈ [0,100]`),
then `Batch.create` (`models.py` lines 118-148: `expiry_date = received_at +
shelf_life_days` days, `version = 1`, `deleted_at = null`) persisted through
`BatchRepository.create` (duplicate `batch_code` rejected). -/
def createBatch (now : Int) (s : Store) (code : String) (received_at : Int)
    (shelf_life_days : Int) (volume_liters fat_percent : ℚ) :
    Except BatchError Batch × Store :=
  if !batchCodeMatches code || shelf_life_days < 1 || 30 < shelf_life_days ||
      volume_liters ≤ 0 || fat_percent < 0 || 100 < fat_percent then
    (.error .validation, s)
  else if s.batches.any (fun b => b.batch_code == code) then
    (.error (.duplicateCode code), s)
  else
    let b : Batch :=
      { id := nextBatchId s
        batch_code := code
        received_at := received_at
        shelf_life_days := shelf_life_days
        expiry_date := received_at + shelf_life_days * 86400
        volume_liters := volume_liters
        fat_percent := fat_percent
        version := 1
        deleted_at := none
        created_at := now
        updated_at := now }
    (.ok b, { s with batches := s.batches ++ [b] })

/-- `BatchRepository.consume` (`batch_repository.py` lines 120-185): lock
and fetch the batch row, check not-found / deleted / expired / volume in
that order, then insert the consumption record, bump `version`, refresh
`updated_at` and commit. -/
def consume (now : Int) (s : Store) (batch_id : Nat) (qty : ℚ)
    (order_id : Option String) :
    Except BatchError ConsumptionRecord × Store :=
  match s.batches.find? (fun b => b.id == batch_id) with
  | none => (.error (.notFound batch_id), s)
  | some b =>
    if b.is_deleted then (.error (.deleted batch_id), s)
    else if b.is_expired now then (.error (.expired batch_id b.expiry_date), s)
    else
      let available := b.available_liters (recordsFor s batch_id)
      if available < qty then
        (.error (.insufficientVolume batch_id available qty), s)
      else
        let record : ConsumptionRecord :=
          { id := nextConsumptionId s
            batch_id := batch_id
            qty := qty
            order_id := order_id
            consumed_at := now }
        (.ok record,
          { s with
            consumptions := s.consumptions ++ [record]
            batches := s.batches.map (fun x =>
              if x.id == batch_id then
                { x with version := x.version + 1, updated_at := now }
              else x) })

/-- `BatchRepository.soft_delete` (`batch_repository.py` lines 187-212):
fetch including deleted rows, reject missing or already-deleted, else set
`deleted_at` and `updated_at` and commit. -/
def soft_delete (now : Int) (s : Store) (batch_id : Nat) :
    Except BatchError Batch × Store :=
  match s.batches.find? (fun b => b.id == batch_id) with
  | none => (.error (.notFound batch_id), s)
  | some b =>
    if b.is_deleted then (.error (.deleted batch_id), s)
    else
      (.ok { b with deleted_at := some now, updated_at := now },
        { s with batches := s.batches.map (fun x =>
            if x.id == batch_id then
              { x with deleted_at := some now, updated_at := now }
            else x) })

/-- `BatchRepository.create_reservation` (`batch_repository.py` lines
218-273): same lock/not-found/deleted/expired sequence as `consume`, volume
check against `free_liters`, then insert the reservation row and commit.
The `free_liters` quantity it reads is modelled from the spec (§3). -/
def create_reservation (now : Int) (s : Store) (batch_id : Nat)
    (reserved_qty : ℚ) (purpose : Option String) :
    Except BatchError BatchReservation × Store :=
  match s.batches.find? (fun b => b.id == batch_id) with
  | none => (.error (.notFound batch_id), s)
  | some b =>
    if b.is_deleted then (.error (.deleted batch_id), s)
    else if b.is_expired now then (.error (.expired batch_id b.expiry_date), s)
    else
      let free := b.free_liters (recordsFor s batch_id) (reservationsFor s batch_id)
      if free < reserved_qty then
        (.error (.insufficientVolume batch_id free reserved_qty), s)
      else
        let reservation : BatchReservation :=
          { id := nextReservationId s
            batch_id := batch_id
            reserved_qty := reserved_qty
            purpose := purpose
            reserved_at := now
            released_at := none }
        (.ok reservation,
          { s with reservations := s.reservations ++ [reservation] })

/-- `BatchRepository.release_reservation` (`batch_repository.py` lines
310-333): fetch by primary key (not-found otherwise), reject when no longer
active, else set `released_at = now` and commit. -/
def release_reservation (now : Int) (s : Store) (reservation_id : Nat) :
    Except BatchError BatchReservation × Store :=
  match s.reservations.find? (fun r => r.id == reservation_id) with
  | none => (.error (.reservationNotFound reservation_id), s)
  | some r =>
    if !r.is_active then (.error (.alreadyReleased reservation_id), s)
    else
      (.ok { r with released_at := some now },
        { s with reservations := s.reservations.map (fun x =>
            if x.id == reservation_id then { x with released_at := some now }
            else x) })

/-- Ordering of batches by expiry date, used by the near-expiry query. -/
def expiryLE (a b : Batch) : Prop :=
  a.expiry_date ≤ b.expiry_date

instance : DecidableRel expiryLE := fun _ _ => Int.decLe _ _

instance : IsTotal Batch expiryLE :=
  ⟨fun a b => Int.le_total a.expiry_date b.expiry_date⟩

instance : IsTrans Batch expiryLE :=
  ⟨fun _ _ _ h1 h2 => le_trans h1 h2⟩

/-- `BatchRepository.get_near_expiry` (`batch_repository.py` lines 94-118):
select non-deleted batches with `expiry_date ≤ now + n_days` days, ordered
by `expiry_date` ascending, then keep those with `available_liters > 0`. -/
def get_near_expiry (now : Int) (s : Store) (n_days : Nat) : List Batch :=
  let threshold := now + (n_days : Int) * 86400
  let eligible := s.batches.filter (fun b =>
    !b.is_deleted && decide (b.expiry_date ≤ threshold))
  (eligible.insertionSort expiryLE).filter (fun b =>
    decide (0 < b.available_liters (recordsFor s b.id)))

/-- `BatchRepository.list_reservations` (`batch_repository.py` lines
293-308): all reservations of the batch, most recently reserved first. -/
def list_reservations (s : Store) (batch_id : Nat) : List BatchReservation :=
  (reservationsFor s batch_id).insertionSort
    (fun a b => b.reserved_at ≤ a.reserved_at)

/-- Modelled from the spec: the `listReservations` operation of §6 fails
NotFound on an unknown batch, else returns the batch's reservations (§4.3);
the endpoint wiring that performs the batch lookup is not under `src/`
(only the repository method and the integration tests are). -/
def listReservationsOp (s : Store) (batch_id : Nat) :
    Except BatchError (List BatchReservation) :=
  if s.batches.any (fun b => b.id == batch_id) then
    .ok (list_reservations s batch_id)
  else
    .error (.notFound batch_id)

/-- One successful mutating operation of the core. -/
inductive Step : Store → Store → Prop where
  | create (now : Int) (code : String) (received_at shelf_life_days : Int)
      (volume_liters fat_percent : ℚ) (b : Batch) (s s' : Store) :
      createBatch now s code received_at shelf_life_days volume_liters
        fat_percent = (.ok b, s') → Step s s'
  | consume (now : Int) (batch_id : Nat) (qty : ℚ) (order_id : Option String)
      (r : ConsumptionRecord) (s s' : Store) :
      consume now s batch_id qty order_id = (.ok r, s') → Step s s'
  | softDelete (now : Int) (batch_id : Nat) (b : Batch) (s s' : Store) :
      soft_delete now s batch_id = (.ok b, s') → Step s s'
  | reserve (now : Int) (batch_id : Nat) (reserved_qty : ℚ)
      (purpose : Option String) (r : BatchReservation) (s s' : Store) :
      create_reservation now s batch_id reserved_qty purpose = (.ok r, s') →
      Step s s'
  | release (now : Int) (reservation_id : Nat) (r : BatchReservation)
      (s s' : Store) :
      release_reservation now s reservation_id = (.ok r, s') → Step s s'

/-- The store before any operation has run. -/
def emptyStore : Store :=
  { batches := [], consumptions := [], reservations := [] }

/-- States reachable from the empty store by successful operations. -/
def Reach (s : Store) : Prop :=
  Relation.ReflTransGen Step emptyStore s

/-- Batch rows carry pairwise-distinct primary keys. -/
def UniqueIds (l : List Batch) : Prop :=
  l.Pairwise (fun a b => a.id ≠ b.id)

/-- The ledger invariant maintained by the operations: distinct batch ids,
every consumption record references an existing batch, and each batch has
non-negative volume with total consumption bounded by it. -/
def Inv (s : Store) : Prop :=
  UniqueIds s.batches ∧
  (∀ r ∈ s.consumptions, ∃ b ∈ s.batches, b.id = r.batch_id) ∧
  (∀ b ∈ s.batches, 0 ≤ b.volume_liters ∧
    consumedSum (recordsFor s b.id) ≤ b.volume_liters)

/-- Epoch seconds for 2025-12-04T08:30:00Z. -/
def t0 : Int := 1764837000

/-- A freshly created 100 L batch (the result of `createBatch` at `t0`). -/
def b1 : Batch :=
  { id := 1
    batch_code := "SCH-20251204-0001"
    received_at := t0
    shelf_life_days := 7
    expiry_date := t0 + 7 * 86400
    volume_liters := 100
    fat_percent := 3
    version := 1
    deleted_at := none
    created_at := t0
    updated_at := t0 }

/-- Store holding just the fresh 100 L batch. -/
def s1 : Store :=
  { batches := [b1], consumptions := [], reservations := [] }

/-- Store holding a soft-deleted batch. -/
def sDel : Store :=
  { batches := [{ b1 with deleted_at := some t0 }]
    consumptions := []
    reservations := [] }

/-- Store holding an expired (as of `t0`) but otherwise active batch. -/
def sExp : Store :=
  { batches := [{ b1 with expiry_date := t0 - 1 }]
    consumptions := []
    reservations := [] }

/-- The batch of the createBatch scenario: received 2025-12-04T08:30:00Z,
shelf life 7 days, 1000 L. -/
def bC7 : Batch :=
  { id := 1
    batch_code := "SCH-20251204-0001"
    received_at := 1764837000
    shelf_life_days := 7
    expiry_date := 1765441800
    volume_liters := 1000
    fat_percent := 3
    version := 1
    deleted_at := none
    created_at := 1764837000
    updated_at := 1764837000 }

/-- The store persisted by the createBatch scenario. -/
def sC7 : Store :=
  { batches := [bC7], consumptions := [], reservations := [] }

/-- The record produced by `consume t0 s1 1 30 (some "ORD-7")`. -/
def rec30 : ConsumptionRecord :=
  { id := 1
    batch_id := 1
    qty := 30
    order_id := some "ORD-7"
    consumed_at := t0 }

/-- The store after consuming 30 L from the 100 L batch. -/
def s30 : Store :=
  { batches := [{ b1 with version := 2, updated_at := t0 }]
    consumptions := [rec30]
    reservations := [] }

/-- Store holding a batch that is both soft-deleted and expired at `t0`. -/
def sDelExp : Store :=
  { batches := [{ b1 with deleted_at := some t0, expiry_date := t0 - 1 }]
    consumptions := []
    reservations := [] }

/-- The reservation produced by `create_reservation t0 s1 1 60 none`. -/
def r60 : BatchReservation :=
  { id := 1
    batch_id := 1
    reserved_qty := 60
    purpose := none
    reserved_at := t0
    released_at := none }

/-- The store after reserving 60 L on the 100 L batch. -/
def s60 : Store :=
  { batches := [b1], consumptions := [], reservations := [r60] }

/-- The reservation produced by `create_reservation t0 s1 1 50 none`. -/
def r50 : BatchReservation :=
  { id := 1
    batch_id := 1
    reserved_qty := 50
    purpose := none
    reserved_at := t0
    released_at := none }

/-- The store after reserving 50 L on the 100 L batch. -/
def s50 : Store :=
  { batches := [b1], consumptions := [], reservations := [r50] }

/-! ### Basic lemmas about sums, clamps and row lookup -/

theorem consumedSum_nil : consumedSum [] = 0 := rfl

theorem consumedSum_append (l1 l2 : List ConsumptionRecord) :
    consumedSum (l1 ++ l2) = consumedSum l1 + consumedSum l2 := by
  simp [consumedSum]

theorem max0_eq_max (x : ℚ) : max0 x = max 0 x := by
  unfold max0
  rcases le_or_lt x 0 with h | h
  · rcases lt_or_eq_of_le h with h' | h'
    · simp [h', max_eq_left h]
    · simp [h', le_refl]
  · rw [if_neg (not_lt.mpr (le_of_lt h)), max_eq_right (le_of_lt h)]

theorem max0_of_nonneg {x : ℚ} (h : 0 ≤ x) : max0 x = x := by
  unfold max0
  exact if_neg (not_lt.mpr h)

theorem available_liters_eq {b : Batch} {rs : List ConsumptionRecord}
    (h1 : consumedSum rs ≤ b.volume_liters) :
    b.available_liters rs = b.volume_liters - consumedSum rs := by
  unfold Batch.available_liters
  split
  · next hEmpty =>
    rw [List.isEmpty_iff] at hEmpty
    subst hEmpty
    simp [consumedSum_nil]
  · exact max0_of_nonneg (by linarith)

theorem le_foldr_max {l : List Nat} {n : Nat} (h : n ∈ l) :
    n ≤ l.foldr max 0 := by
  induction l with
  | nil => cases h
  | cons a t ih =>
    rcases List.mem_cons.mp h with rfl | h'
    · exact Nat.le_max_left _ _
    · exact Nat.le_trans (ih h') (Nat.le_max_right _ _)

theorem nextBatchId_fresh (s : Store) : ∀ b ∈ s.batches, b.id ≠ nextBatchId s := by
  intro b hb
  have h : b.id ≤ (s.batches.map (fun x => x.id)).foldr max 0 :=
    le_foldr_max (List.mem_map_of_mem (fun x => x.id) hb)
  unfold nextBatchId
  omega

theorem nextReservationId_fresh (s : Store) :
    ∀ r ∈ s.reservations, r.id ≠ nextReservationId s := by
  intro r hr
  have h : r.id ≤ (s.reservations.map (fun x => x.id)).foldr max 0 :=
    le_foldr_max (List.mem_map_of_mem (fun x => x.id) hr)
  unfold nextReservationId
  omega

theorem find?_batch_mem {l : List Batch} {i : Nat} {b : Batch}
    (h : l.find? (fun x => x.id == i) = some b) : b ∈ l ∧ b.id = i := by
  refine ⟨List.mem_of_find?_eq_some h, ?_⟩
  have := List.find?_some h
  simpa using this

theorem find?_batch_unique {l : List Batch} (hu : l.Pairwise (fun a b => a.id ≠ b.id))
    {i : Nat} {x b : Batch} (hx : x ∈ l) (hid : x.id = i)
    (hf : l.find? (fun y => y.id == i) = some b) : x = b := by
  induction l with
  | nil => cases hx
  | cons a t ih =>
    rcases List.pairwise_cons.mp hu with ⟨ha, ht⟩
    rcases List.mem_cons.mp hx with rfl | hx'
    · rw [List.find?_cons_of_pos _ (by simpa using hid)] at hf
      exact (Option.some.injEq _ _ ▸ hf).symm ▸ rfl
    · have hne : a.id ≠ i := hid ▸ ha x hx'
      rw [List.find?_cons_of_neg _ (by simpa using hne)] at hf
      exact ih ht hx' hf

/-! ### Inversion lemmas: the shape of each successful operation -/

theorem consume_ok {now : Int} {s : Store} {batch_id : Nat} {qty : ℚ}
    {order_id : Option String} {r : ConsumptionRecord} {s' : Store}
    (h : consume now s batch_id qty order_id = (.ok r, s')) :
    ∃ b, s.batches.find? (fun x => x.id == batch_id) = some b ∧
      b.is_deleted = false ∧
      b.is_expired now = false ∧
      ¬ b.available_liters (recordsFor s batch_id) < qty ∧
      r = { id := nextConsumptionId s, batch_id := batch_id, qty := qty,
            order_id := order_id, consumed_at := now } ∧
      s' = { s with
        consumptions := s.consumptions ++ [r]
        batches := s.batches.map (fun x =>
          if x.id == batch_id then
            { x with version := x.version + 1, updated_at := now }
          else x) } := by
  unfold consume at h
  split at h
  · simp at h
  · next b hfind =>
    simp only at h
    split at h
    · simp at h
    · next hdel =>
      split at h
      · simp at h
      · next hexp =>
        split at h
        · simp at h
        · next hvol =>
          simp only [Prod.mk.injEq, Except.ok.injEq] at h
          obtain ⟨hr, hs⟩ := h
          exact ⟨b, hfind, Bool.not_eq_true _ ▸ hdel, Bool.not_eq_true _ ▸ hexp,
            hvol, hr.symm, by rw [← hs, hr]⟩

theorem createBatch_ok {now : Int} {s : Store} {code : String}
    {received_at shelf_life_days : Int} {volume_liters fat_percent : ℚ}
    {b : Batch} {s' : Store}
    (h : createBatch now s code received_at shelf_life_days volume_liters
      fat_percent = (.ok b, s')) :
    batchCodeMatches code = true ∧ 1 ≤ shelf_life_days ∧ shelf_life_days ≤ 30 ∧
    0 < volume_liters ∧ 0 ≤ fat_percent ∧ fat_percent ≤ 100 ∧
    b = { id := nextBatchId s, batch_code := code, received_at := received_at,
          shelf_life_days := shelf_life_days,
          expiry_date := received_at + shelf_life_days * 86400,
          volume_liters := volume_liters, fat_percent := fat_percent,
          version := 1, deleted_at := none, created_at := now,
          updated_at := now } ∧
    s' = { s with batches := s.batches ++ [b] } := by
  unfold createBatch at h
  split at h
  · simp at h
  · next hvalid =>
    split at h
    · simp at h
    · simp only [Prod.mk.injEq, Except.ok.injEq] at h
      obtain ⟨hb, hs⟩ := h
      rw [Bool.not_eq_true] at hvalid
      simp only [Bool.or_eq_false_iff, Bool.not_eq_true',
        decide_eq_false_iff_not, Bool.not_eq_false] at hvalid
      obtain ⟨⟨⟨⟨⟨hcode, h1⟩, h2⟩, h3⟩, h4⟩, h5⟩ := hvalid
      have hcode' : batchCodeMatches code = true := by simpa using hcode
      refine ⟨hcode', by omega, by omega, by exact lt_of_not_le h3, ?_, ?_,
        hb.symm, by rw [← hs, hb]⟩
      · exact le_of_not_lt h4
      · exact le_of_not_lt h5

theorem soft_delete_ok {now : Int} {s : Store} {batch_id : Nat}
    {b : Batch} {s' : Store}
    (h : soft_delete now s batch_id = (.ok b, s')) :
    ∃ x, s.batches.find? (fun y => y.id == batch_id) = some x ∧
      x.is_deleted = false ∧
      b = { x with deleted_at := some now, updated_at := now } ∧
      s' = { s with batches := s.batches.map (fun y =>
        if y.id == batch_id then
          { y with deleted_at := some now, updated_at := now }
        else y) } := by
  unfold soft_delete at h
  split at h
  · simp at h
  · next x hfind =>
    split at h
    · simp at h
    · next hdel =>
      simp only [Prod.mk.injEq, Except.ok.injEq] at h
      exact ⟨x, hfind, Bool.not_eq_true _ ▸ hdel, h.1.symm, h.2.symm⟩

theorem create_reservation_ok {now : Int} {s : Store} {batch_id : Nat}
    {reserved_qty : ℚ} {purpose : Option String} {r : BatchReservation}
    {s' : Store}
    (h : create_reservation now s batch_id reserved_qty purpose = (.ok r, s')) :
    ∃ b, s.batches.find? (fun x => x.id == batch_id) = some b ∧
      b.is_deleted = false ∧
      b.is_expired now = false ∧
      ¬ b.free_liters (recordsFor s batch_id) (reservationsFor s batch_id)
          < reserved_qty ∧
      r = { id := nextReservationId s, batch_id := batch_id,
            reserved_qty := reserved_qty, purpose := purpose,
            reserved_at := now, released_at := none } ∧
      s' = { s with reservations := s.reservations ++ [r] } := by
  unfold create_reservation at h
  split at h
  · simp at h
  · next b hfind =>
    simp only at h
    split at h
    · simp at h
    · next hdel =>
      split at h
      · simp at h
      · next hexp =>
        split at h
        · simp at h
        · next hfree =>
          simp only [Prod.mk.injEq, Except.ok.injEq] at h
          obtain ⟨hr, hs⟩ := h
          exact ⟨b, hfind, Bool.not_eq_true _ ▸ hdel, Bool.not_eq_true _ ▸ hexp,
            hfree, hr.symm, by rw [← hs, hr]⟩

theorem release_reservation_ok {now : Int} {s : Store} {reservation_id : Nat}
    {r : BatchReservation} {s' : Store}
    (h : release_reservation now s reservation_id = (.ok r, s')) :
    ∃ x, s.reservations.find? (fun y => y.id == reservation_id) = some x ∧
      x.released_at = none ∧
      r = { x with released_at := some now } ∧
      s' = { s with reservations := s.reservations.map (fun y =>
        if y.id == reservation_id then { y with released_at := some now }
        else y) } := by
  unfold release_reservation at h
  split at h
  · simp at h
  · next x hfind =>
    split at h
    · simp at h
    · next hact =>
      simp only [Prod.mk.injEq, Except.ok.injEq] at h
      refine ⟨x, hfind, ?_, h.1.symm, h.2.symm⟩
      have hxact : x.is_active = true := by
        revert hact
        cases x.is_active <;> simp
      simpa [BatchReservation.is_active, Option.isNone_iff_eq_none] using hxact

/-! ### Preservation of the ledger invariant -/

theorem Inv_empty : Inv emptyStore := by
  refine ⟨List.Pairwise.nil, ?_, ?_⟩ <;> intro x hx <;> cases hx

theorem recordsFor_congr {s s' : Store} (h : s'.consumptions = s.consumptions) :
    ∀ i, recordsFor s' i = recordsFor s i := by
  intro i
  simp [recordsFor, h]

theorem Inv_congr {s s' : Store} (hb : s'.batches = s.batches)
    (hc : s'.consumptions = s.consumptions) (hInv : Inv s) : Inv s' := by
  obtain ⟨h1, h2, h3⟩ := hInv
  refine ⟨hb ▸ h1, ?_, ?_⟩
  · intro r hr
    rw [hb, hc] at *
    exact h2 r (hc ▸ hr)
  · intro b hbmem
    rw [recordsFor_congr hc]
    exact h3 b (hb ▸ hbmem)

theorem uniqueIds_map {l : List Batch} {f : Batch → Batch}
    (hf : ∀ x, (f x).id = x.id) (h : UniqueIds l) : UniqueIds (l.map f) := by
  unfold UniqueIds at *
  rw [List.pairwise_map]
  exact h.imp (fun hne => by rw [hf, hf]; exact hne)

theorem recordsFor_fresh {s : Store} (hInv : Inv s) {i : Nat}
    (hfresh : ∀ b ∈ s.batches, b.id ≠ i) : recordsFor s i = [] := by
  rw [recordsFor, List.filter_eq_nil_iff]
  intro r hr
  obtain ⟨b, hb, hid⟩ := hInv.2.1 r hr
  simp only [beq_iff_eq]
  intro hri
  exact hfresh b hb (hid.trans hri)

theorem Inv_createBatch {now : Int} {s : Store} {code : String}
    {received_at shelf_life_days : Int} {volume_liters fat_percent : ℚ}
    {b : Batch} {s' : Store} (hInv : Inv s)
    (h : createBatch now s code received_at shelf_life_days volume_liters
      fat_percent = (.ok b, s')) : Inv s' := by
  obtain ⟨_, _, _, hvol, _, _, hb, hs⟩ := createBatch_ok h
  have hfresh : ∀ x ∈ s.batches, x.id ≠ b.id := by
    intro x hx
    rw [hb]
    exact nextBatchId_fresh s x hx
  subst hs
  refine ⟨?_, ?_, ?_⟩
  · show List.Pairwise _ (s.batches ++ [b])
    rw [List.pairwise_append]
    exact ⟨hInv.1, List.pairwise_singleton _ _, by
      intro x hx y hy
      rw [List.mem_singleton] at hy
      exact hy ▸ hfresh x hx⟩
  · intro r hr
    obtain ⟨x, hx, hxid⟩ := hInv.2.1 r hr
    exact ⟨x, List.mem_append_left _ hx, hxid⟩
  · intro x hx
    rcases List.mem_append.mp hx with hx' | hx'
    · rw [recordsFor_congr rfl]
      exact hInv.2.2 x hx'
    · rw [List.mem_singleton] at hx'
      subst hx'
      have hrec : recordsFor s x.id = [] := recordsFor_fresh hInv hfresh
      have : recordsFor { s with batches := s.batches ++ [x] } x.id = [] := by
        rw [recordsFor_congr rfl]
        exact hrec
      rw [this, consumedSum_nil]
      constructor
      · rw [hb]
        exact le_of_lt hvol
      · rw [hb]
        exact le_of_lt hvol

theorem Inv_consume {now : Int} {s : Store} {batch_id : Nat} {qty : ℚ}
    {order_id : Option String} {r : ConsumptionRecord} {s' : Store}
    (hInv : Inv s) (h : consume now s batch_id qty order_id = (.ok r, s')) :
    Inv s' := by
  obtain ⟨b, hfind, _, _, hvol, hr, hs⟩ := consume_ok h
  obtain ⟨hbmem, hbid⟩ := find?_batch_mem hfind
  have hidf : ∀ x : Batch,
      ((fun x => if x.id == batch_id then
        { x with version := x.version + 1, updated_at := now } else x) x).id
        = x.id := by
    intro x
    by_cases hx : x.id = batch_id <;> simp [hx]
  subst hs
  have hrec : ∀ (s2 : Store), s2.consumptions = s.consumptions ++ [r] →
      ∀ i, recordsFor s2 i =
        recordsFor s i ++ List.filter (fun x => x.batch_id == i) [r] := by
    intro s2 h2 i
    simp [recordsFor, h2, List.filter_append]
  refine ⟨uniqueIds_map hidf hInv.1, ?_, ?_⟩
  · intro x hx
    rcases List.mem_append.mp hx with hx' | hx'
    · obtain ⟨y, hy, hyid⟩ := hInv.2.1 x hx'
      exact ⟨_, List.mem_map_of_mem _ hy, (hidf y).trans hyid⟩
    · rw [List.mem_singleton] at hx'
      subst hx'
      refine ⟨_, List.mem_map_of_mem _ hbmem, ?_⟩
      rw [hidf b, hbid, hr]
  · intro x hx
    obtain ⟨y, hy, hxy⟩ := List.mem_map.mp hx
    have hyvals := hInv.2.2 y hy
    have hxid : x.id = y.id := by rw [← hxy]; exact hidf y
    have hxvol : x.volume_liters = y.volume_liters := by
      rw [← hxy]
      by_cases hc : y.id = batch_id <;> simp [hc]
    rw [hrec _ rfl x.id, hxid, hxvol]
    by_cases hyb : y.id = batch_id
    · have hyeq : y = b := find?_batch_unique hInv.1 hy hyb hfind
      have hsum : consumedSum (recordsFor s y.id ++ List.filter
          (fun x => x.batch_id == y.id) [r]) =
          consumedSum (recordsFor s y.id) + qty := by
        rw [consumedSum_append]
        have : List.filter (fun x => x.batch_id == y.id) [r] = [r] := by
          simp [hr, hyb]
        rw [this, hr]
        simp [consumedSum]
      rw [hsum]
      have hble : consumedSum (recordsFor s batch_id) ≤ b.volume_liters := by
        rw [← hbid]
        exact (hInv.2.2 b hbmem).2
      have havail := available_liters_eq hble
      rw [havail] at hvol
      have hqty : qty ≤ b.volume_liters - consumedSum (recordsFor s batch_id) :=
        le_of_not_lt hvol
      rw [hyeq, hbid]
      exact ⟨(hInv.2.2 b hbmem).1, by linarith⟩
    · have : List.filter (fun x => x.batch_id == y.id) [r] = [] := by
        simp [hr]
        intro hcontra
        exact absurd hcontra.symm hyb
      rw [this, List.append_nil]
      exact hyvals

theorem Inv_soft_delete {now : Int} {s : Store} {batch_id : Nat}
    {b : Batch} {s' : Store} (hInv : Inv s)
    (h : soft_delete now s batch_id = (.ok b, s')) : Inv s' := by
  obtain ⟨x, _, _, _, hs⟩ := soft_delete_ok h
  have hidf : ∀ y : Batch,
      ((fun y => if y.id == batch_id then
        { y with deleted_at := some now, updated_at := now } else y) y).id
        = y.id := by
    intro y
    by_cases hy : y.id = batch_id <;> simp [hy]
  subst hs
  refine ⟨uniqueIds_map hidf hInv.1, ?_, ?_⟩
  · intro r hr
    obtain ⟨y, hy, hyid⟩ := hInv.2.1 r hr
    exact ⟨_, List.mem_map_of_mem _ hy, (hidf y).trans hyid⟩
  · intro y hy
    obtain ⟨z, hz, hzy⟩ := List.mem_map.mp hy
    have hzvals := hInv.2.2 z hz
    have hyid : y.id = z.id := by rw [← hzy]; exact hidf z
    have hyvol : y.volume_liters = z.volume_liters := by
      rw [← hzy]
      by_cases hc : z.id = batch_id <;> simp [hc]
    rw [recordsFor_congr rfl, hyid, hyvol]
    exact hzvals

theorem Inv_reach {s : Store} (h : Reach s) : Inv s := by
  unfold Reach at h
  induction h with
  | refl => exact Inv_empty
  | tail _ hstep ih =>
    cases hstep with
    | create _ _ _ _ _ _ _ _ _ hok => exact Inv_createBatch ih hok
    | consume _ _ _ _ _ _ _ hok => exact Inv_consume ih hok
    | softDelete _ _ _ _ _ hok => exact Inv_soft_delete ih hok
    | reserve _ _ _ _ _ _ _ hok =>
      obtain ⟨_, _, _, _, _, _, hs⟩ := create_reservation_ok hok
      exact Inv_congr (by rw [hs]) (by rw [hs]) ih
    | release _ _ _ _ _ hok =>
      obtain ⟨_, _, _, _, hs⟩ := release_reservation_ok hok
      exact Inv_congr (by rw [hs]) (by rw [hs]) ih

/-! ### Claim theorems -/

/-- C1: in every state reachable by successful operations, the sum of the
consumption quantities of each batch never exceeds its `volume_liters`, and
a consume on an active, unexpired batch that would push the sum past
`volume_liters` is rejected with InsufficientVolume instead of committing. -/
theorem consumption_never_exceeds_volume (s : Store) (hs : Reach s) :
    (∀ b ∈ s.batches, consumedSum (recordsFor s b.id) ≤ b.volume_liters) ∧
    (∀ (now : Int) (batch_id : Nat) (qty : ℚ) (order_id : Option String)
      (b : Batch),
      s.batches.find? (fun x => x.id == batch_id) = some b →
      b.is_deleted = false → b.is_expired now = false →
      b.volume_liters < consumedSum (recordsFor s batch_id) + qty →
      (consume now s batch_id qty order_id).1 =
        .error (.insufficientVolume batch_id
          (b.available_liters (recordsFor s batch_id)) qty)) := by
  have hInv := Inv_reach hs
  constructor
  · intro b hb
    exact (hInv.2.2 b hb).2
  · intro now batch_id qty order_id b hfind hdel hexp hover
    obtain ⟨hbmem, hbid⟩ := find?_batch_mem hfind
    have hbound := (hInv.2.2 b hbmem).2
    rw [hbid] at hbound
    have havail := available_liters_eq hbound
    have hlt : b.available_liters (recordsFor s batch_id) < qty := by
      rw [havail]
      linarith
    unfold consume
    rw [hfind]
    simp [hdel, hexp, hlt]

unseal Rat.add Rat.sub in
/-- Witness for C1: the 100 L batch created at `t0` satisfies the bound, and
the over-draw `consume(qty=150)` is rejected with InsufficientVolume. -/
theorem consumption_never_exceeds_volume_witness :
    consumedSum (recordsFor s1 1) ≤ b1.volume_liters ∧
    (consume t0 s1 1 150 none).1 =
      .error (.insufficientVolume 1 (b1.available_liters (recordsFor s1 1))
        150) := by
  have hreach : Reach s1 := Relation.ReflTransGen.single
    (Step.create t0 "SCH-20251204-0001" t0 7 100 3 b1 emptyStore s1 (by decide))
  have h := consumption_never_exceeds_volume s1 hreach
  exact ⟨h.1 b1 (by simp [s1, b1]), h.2 t0 1 150 none b1 (by decide) (by decide)
    (by decide) (by decide)⟩

/-- C2: `consume` checks not-found, then deleted, then expired, then volume,
in exactly this order; in particular a batch that is both soft-deleted and
expired reports the deleted conflict, and the volume conflict carries both
the available and the requested amounts. -/
theorem consume_checks_in_order (now : Int) (s : Store) (batch_id : Nat)
    (qty : ℚ) (order_id : Option String) :
    ((∀ b ∈ s.batches, b.id ≠ batch_id) →
      (consume now s batch_id qty order_id).1 = .error (.notFound batch_id)) ∧
    (∀ b, s.batches.find? (fun x => x.id == batch_id) = some b →
      (b.is_deleted = true →
        (consume now s batch_id qty order_id).1 =
          .error (.deleted batch_id)) ∧
      (b.is_deleted = false → b.is_expired now = true →
        (consume now s batch_id qty order_id).1 =
          .error (.expired batch_id b.expiry_date)) ∧
      (b.is_deleted = false → b.is_expired now = false →
        b.available_liters (recordsFor s batch_id) < qty →
        (consume now s batch_id qty order_id).1 =
          .error (.insufficientVolume batch_id
            (b.available_liters (recordsFor s batch_id)) qty))) := by
  constructor
  · intro h
    have hnone : s.batches.find? (fun x => x.id == batch_id) = none := by
      rw [List.find?_eq_none]
      intro b hb
      simpa using h b hb
    unfold consume
    rw [hnone]
  · intro b hfind
    refine ⟨?_, ?_, ?_⟩
    · intro hdel
      unfold consume
      rw [hfind]
      simp [hdel]
    · intro hdel hexp
      unfold consume
      rw [hfind]
      simp [hdel, hexp]
    · intro hdel hexp hvol
      unfold consume
      rw [hfind]
      simp [hdel, hexp, hvol]

unseal Rat.add Rat.sub in
/-- Witness for C2: the four rejection branches at concrete stores — unknown
id 99, a deleted-and-expired batch reporting the deleted conflict, an expired
batch, and a 150 L request against 100 L available. -/
theorem consume_checks_in_order_witness :
    (consume t0 s1 99 10 none).1 = .error (.notFound 99) ∧
    (consume t0 sDelExp 1 10 none).1 = .error (.deleted 1) ∧
    (consume t0 sExp 1 10 none).1 = .error (.expired 1 (t0 - 1)) ∧
    (consume t0 s1 1 150 none).1 =
      .error (.insufficientVolume 1 (b1.available_liters (recordsFor s1 1))
        150) := by
  refine ⟨(consume_checks_in_order t0 s1 99 10 none).1 ?_, ?_, ?_, ?_⟩
  · intro b hb
    simp only [s1, List.mem_singleton] at hb
    subst hb
    decide
  · exact ((consume_checks_in_order t0 sDelExp 1 10 none).2
      { b1 with deleted_at := some t0, expiry_date := t0 - 1 }
      (by decide)).1 (by decide)
  · exact (((consume_checks_in_order t0 sExp 1 10 none).2
      { b1 with expiry_date := t0 - 1 } (by decide)).2.1 (by decide) (by decide))
  · exact (((consume_checks_in_order t0 s1 1 150 none).2 b1
      (by decide)).2.2 (by decide) (by decide) (by decide))

/-- C3: a successful `consume` appends exactly one consumption record with
the requested batch id, quantity and order id, leaves reservations alone,
and on the batch rows changes only the consumed batch's `version` (by
exactly one) and `updated_at`; every other field — including `expiry_date`,
which is never recomputed — is unchanged. -/
theorem consume_effect_frame {now : Int} {s : Store} {batch_id : Nat}
    {qty : ℚ} {order_id : Option String} {r : ConsumptionRecord} {s' : Store}
    (h : consume now s batch_id qty order_id = (.ok r, s')) :
    s'.consumptions = s.consumptions ++ [r] ∧
    r.batch_id = batch_id ∧ r.qty = qty ∧ r.order_id = order_id ∧
    s'.reservations = s.reservations ∧
    s'.batches.length = s.batches.length ∧
    (∀ (i : Nat) (x y : Batch),
      s.batches[i]? = some x → s'.batches[i]? = some y →
      y.id = x.id ∧ y.batch_code = x.batch_code ∧
      y.received_at = x.received_at ∧
      y.shelf_life_days = x.shelf_life_days ∧
      y.expiry_date = x.expiry_date ∧
      y.volume_liters = x.volume_liters ∧
      y.fat_percent = x.fat_percent ∧
      y.deleted_at = x.deleted_at ∧
      y.created_at = x.created_at ∧
      (x.id = batch_id → y.version = x.version + 1 ∧ y.updated_at = now) ∧
      (x.id ≠ batch_id → y = x)) := by
  obtain ⟨b, hfind, _, _, _, hr, hs⟩ := consume_ok h
  subst hs
  refine ⟨rfl, by rw [hr], by rw [hr], by rw [hr], rfl, by simp, ?_⟩
  intro i x y hx hy
  have hy' : (s.batches.map (fun x =>
      if x.id == batch_id then
        { x with version := x.version + 1, updated_at := now }
      else x))[i]? = some y := hy
  rw [List.getElem?_map, hx] at hy'
  have hyx : y = if x.id == batch_id then
      { x with version := x.version + 1, updated_at := now } else x := by
    simpa using hy'.symm
  subst hyx
  by_cases hc : x.id = batch_id
  · simp [hc]
  · simp [hc]

theorem consume_cases (now : Int) (s : Store) (batch_id : Nat) (qty : ℚ)
    (order_id : Option String) :
    (∃ r s', consume now s batch_id qty order_id = (.ok r, s')) ∨
    ∃ e, consume now s batch_id qty order_id = (.error e, s) := by
  unfold consume
  dsimp only
  split
  · exact .inr ⟨_, rfl⟩
  · split
    · exact .inr ⟨_, rfl⟩
    · split
      · exact .inr ⟨_, rfl⟩
      · split
        · exact .inr ⟨_, rfl⟩
        · exact .inl ⟨_, _, rfl⟩

theorem create_reservation_cases (now : Int) (s : Store) (batch_id : Nat)
    (reserved_qty : ℚ) (purpose : Option String) :
    (∃ r s', create_reservation now s batch_id reserved_qty purpose =
      (.ok r, s')) ∨
    ∃ e, create_reservation now s batch_id reserved_qty purpose =
      (.error e, s) := by
  unfold create_reservation
  dsimp only
  split
  · exact .inr ⟨_, rfl⟩
  · split
    · exact .inr ⟨_, rfl⟩
    · split
      · exact .inr ⟨_, rfl⟩
      · split
        · exact .inr ⟨_, rfl⟩
        · exact .inl ⟨_, _, rfl⟩

/-- C4: a `consume` or `create_reservation` call that fails (not-found,
deleted, expired or insufficient volume) commits nothing: the store it
returns is exactly the store it was given. -/
theorem failed_call_leaves_store_unchanged (now : Int) (s : Store)
    (batch_id : Nat) (qty reserved_qty : ℚ) (order_id purpose : Option String) :
    (∀ e, (consume now s batch_id qty order_id).1 = .error e →
      (consume now s batch_id qty order_id).2 = s) ∧
    (∀ e, (create_reservation now s batch_id reserved_qty purpose).1 =
        .error e →
      (create_reservation now s batch_id reserved_qty purpose).2 = s) := by
  constructor
  · intro e h
    rcases consume_cases now s batch_id qty order_id with ⟨r, s', hok⟩ | ⟨e', herr⟩
    · rw [hok] at h
      simp at h
    · rw [herr]
  · intro e h
    rcases create_reservation_cases now s batch_id reserved_qty purpose with
      ⟨r, s', hok⟩ | ⟨e', herr⟩
    · rw [hok] at h
      simp at h
    · rw [herr]

unseal Rat.add Rat.sub in
/-- Witness for C4: the rejected 150 L consume and 150 L reserve on the
100 L batch both return the store unchanged. -/
theorem failed_call_leaves_store_unchanged_witness :
    (consume t0 s1 1 150 none).2 = s1 ∧
    (create_reservation t0 s1 1 150 none).2 = s1 := by
  refine ⟨(failed_call_leaves_store_unchanged t0 s1 1 150 150 none none).1
    (.insufficientVolume 1 100 150) (by decide),
    (failed_call_leaves_store_unchanged t0 s1 1 150 150 none none).2
    (.insufficientVolume 1 100 150) (by decide)⟩

unseal Rat.add Rat.sub in
/-- Witness for C3: consuming 30 L from the 100 L batch appends exactly the
expected record and changes no other store component. -/
theorem consume_effect_frame_witness :
    s30.consumptions = s1.consumptions ++ [rec30] ∧
    rec30.batch_id = 1 ∧ rec30.qty = 30 ∧ rec30.order_id = some "ORD-7" ∧
    s30.reservations = s1.reservations ∧
    s30.batches.length = s1.batches.length := by
  have h := consume_effect_frame
    (by decide : consume t0 s1 1 30 (some "ORD-7") = (.ok rec30, s30))
  exact ⟨h.1, h.2.1, h.2.2.1, h.2.2.2.1, h.2.2.2.2.1, h.2.2.2.2.2.1⟩

/-- C5: `create_reservation` on an existing, active, unexpired batch
validates the request against `free_liters` (available minus active
reservations): it fails with InsufficientVolume carrying the free amount
when the request exceeds it, and succeeds otherwise. -/
theorem reserve_checks_free_liters (now : Int) (s : Store) (batch_id : Nat)
    (reserved_qty : ℚ) (purpose : Option String) (b : Batch)
    (hfind : s.batches.find? (fun x => x.id == batch_id) = some b)
    (hdel : b.is_deleted = false) (hexp : b.is_expired now = false) :
    (b.free_liters (recordsFor s batch_id) (reservationsFor s batch_id)
        < reserved_qty →
      (create_reservation now s batch_id reserved_qty purpose).1 =
        .error (.insufficientVolume batch_id
          (b.free_liters (recordsFor s batch_id) (reservationsFor s batch_id))
          reserved_qty)) ∧
    (¬ b.free_liters (recordsFor s batch_id) (reservationsFor s batch_id)
        < reserved_qty →
      ∃ r, (create_reservation now s batch_id reserved_qty purpose).1 =
        .ok r ∧ r.reserved_qty = reserved_qty) := by
  constructor
  · intro hlt
    unfold create_reservation
    rw [hfind]
    simp [hdel, hexp, hlt]
  · intro hge
    unfold create_reservation
    rw [hfind]
    simp only [hdel, hexp, Bool.false_eq_true, if_false, if_neg hge]
    exact ⟨_, rfl, rfl⟩

unseal Rat.add Rat.sub in
/-- Witness for C5 (the spec scenario): on the 100 L batch a first
`reserve(60)` succeeds, and a second `reserve(60)` against the resulting
store fails with InsufficientVolume because only 40 L are free. -/
theorem reserve_checks_free_liters_witness :
    (∃ r, (create_reservation t0 s1 1 60 none).1 = .ok r ∧
      r.reserved_qty = 60) ∧
    create_reservation t0 s1 1 60 none = (.ok r60, s60) ∧
    (create_reservation t0 s60 1 60 none).1 =
      .error (.insufficientVolume 1 40 60) := by
  refine ⟨(reserve_checks_free_liters t0 s1 1 60 none b1 (by decide)
    (by decide) (by decide)).2 (by decide), by decide, ?_⟩
  have h := (reserve_checks_free_liters t0 s60 1 60 none b1 (by decide)
    (by decide) (by decide)).1 (by decide)
  have hfree : b1.free_liters (recordsFor s60 1) (reservationsFor s60 1)
      = 40 := by decide
  rw [hfree] at h
  exact h

theorem find?_append_of_none {α : Type} {l1 l2 : List α} {p : α → Bool}
    (h : ∀ x ∈ l1, p x = false) : (l1 ++ l2).find? p = l2.find? p := by
  induction l1 with
  | nil => rfl
  | cons a t ih =>
    rw [List.cons_append, List.find?_cons_of_neg _
      (by simp [h a (List.mem_cons_self a t)]),
      ih (fun x hx => h x (List.mem_cons_of_mem a hx))]

theorem map_id_of_eq {α : Type} {l : List α} {f : α → α}
    (h : ∀ x ∈ l, f x = x) : l.map f = l := by
  induction l with
  | nil => rfl
  | cons a t ih =>
    rw [List.map_cons, h a (List.mem_cons_self a t),
      ih (fun x hx => h x (List.mem_cons_of_mem a hx))]

theorem reserved_liters_append (l1 l2 : List BatchReservation) :
    reserved_liters (l1 ++ l2) = reserved_liters l1 + reserved_liters l2 := by
  simp [reserved_liters, List.filter_append]

theorem reserved_liters_inactive {r : BatchReservation} {t : Int}
    (h : r.released_at = some t) : reserved_liters [r] = 0 := by
  simp [reserved_liters, h]

/-- C6: a reserve-then-release round trip restores `free_liters` of every
batch to its pre-reservation value (batches and consumption records are
untouched and the active-reservation sum returns to its old value), and a
second release of the same reservation fails AlreadyReleased. -/
theorem reserve_release_round_trip (t t' t2 : Int) (s : Store)
    (batch_id : Nat) (qty : ℚ) (purpose : Option String)
    (r : BatchReservation) (s1' : Store)
    (h : create_reservation t s batch_id qty purpose = (.ok r, s1')) :
    ∃ r' s2, release_reservation t' s1' r.id = (.ok r', s2) ∧
      s2.batches = s.batches ∧
      s2.consumptions = s.consumptions ∧
      (∀ i, reserved_liters (reservationsFor s2 i) =
        reserved_liters (reservationsFor s i)) ∧
      (∀ b ∈ s.batches,
        b.free_liters (recordsFor s2 b.id) (reservationsFor s2 b.id) =
        b.free_liters (recordsFor s b.id) (reservationsFor s b.id)) ∧
      (release_reservation t2 s2 r.id).1 = .error (.alreadyReleased r.id) := by
  obtain ⟨b, hfind, hdel, hexp, hfree, hr, hs⟩ := create_reservation_ok h
  have hfresh : ∀ x ∈ s.reservations, x.id ≠ r.id := by
    intro x hx
    rw [hr]
    exact nextReservationId_fresh s x hx
  have hract : r.released_at = none := by rw [hr]
  subst hs
  have hfind1 : (s.reservations ++ [r]).find? (fun y => y.id == r.id)
      = some r := by
    rw [find?_append_of_none (fun x hx => by simp [hfresh x hx])]
    simp
  have hmap : (s.reservations ++ [r]).map (fun x =>
      if x.id == r.id then { x with released_at := some t' } else x) =
      s.reservations ++ [{ r with released_at := some t' }] := by
    rw [List.map_append, map_id_of_eq (fun x hx => by simp [hfresh x hx])]
    simp
  have hresr : ∀ (s2 : Store),
      s2.reservations = s.reservations ++ [{ r with released_at := some t' }] →
      ∀ i, reserved_liters (reservationsFor s2 i) =
        reserved_liters (reservationsFor s i) := by
    intro s2 h2 i
    have hres : reservationsFor s2 i = reservationsFor s i ++
        List.filter (fun x => x.batch_id == i)
          [{ r with released_at := some t' }] := by
      simp [reservationsFor, h2, List.filter_append]
    rw [hres, reserved_liters_append]
    have hzero : reserved_liters (List.filter (fun x => x.batch_id == i)
        [{ r with released_at := some t' }]) = 0 := by
      by_cases hb : r.batch_id = i
      · have hfil : List.filter (fun x => x.batch_id == i)
            [{ r with released_at := some t' }] =
            [{ r with released_at := some t' }] := by
          simp [hb]
        rw [hfil]
        exact reserved_liters_inactive rfl
      · have hfil : List.filter (fun x => x.batch_id == i)
            [{ r with released_at := some t' }] =
            ([] : List BatchReservation) := by
          simp [hb]
        rw [hfil]
        rfl
    rw [hzero, add_zero]
  refine ⟨{ r with released_at := some t' },
    { batches := s.batches, consumptions := s.consumptions,
      reservations := s.reservations ++ [{ r with released_at := some t' }] },
    ?_, rfl, rfl, hresr _ rfl, ?_, ?_⟩
  · unfold release_reservation
    rw [hfind1]
    dsimp only
    rw [if_neg (by simp [BatchReservation.is_active, hract])]
    rw [hmap]
  · intro b' hb'
    unfold Batch.free_liters
    have hrc := @recordsFor_congr s
      ⟨s.batches, s.consumptions,
        s.reservations ++ [{ r with released_at := some t' }]⟩ rfl
    rw [hrc, hresr _ rfl]
  · unfold release_reservation
    have hfind2 : (s.reservations ++ [{ r with released_at := some t' }]).find?
        (fun y => y.id == r.id) = some { r with released_at := some t' } := by
      rw [find?_append_of_none (fun x hx => by simp [hfresh x hx])]
      simp
    rw [hfind2]
    dsimp only
    rw [if_pos (by simp [BatchReservation.is_active])]

unseal Rat.add Rat.sub in
/-- Witness for C6: reserving 50 L on the 100 L batch and releasing it
restores the free volume, and the second release fails AlreadyReleased. -/
theorem reserve_release_round_trip_witness :
    ∃ r' s2, release_reservation t0 s50 r50.id = (.ok r', s2) ∧
      s2.batches = s1.batches ∧
      s2.consumptions = s1.consumptions ∧
      (∀ i, reserved_liters (reservationsFor s2 i) =
        reserved_liters (reservationsFor s1 i)) ∧
      (∀ b ∈ s1.batches,
        b.free_liters (recordsFor s2 b.id) (reservationsFor s2 b.id) =
        b.free_liters (recordsFor s1 b.id) (reservationsFor s1 b.id)) ∧
      (release_reservation t0 s2 r50.id).1 =
        .error (.alreadyReleased r50.id) :=
  reserve_release_round_trip t0 t0 t0 s1 1 50 none r50 s50 (by decide)

/-- C7: `createBatch` validates the code against `SCH-YYYYMMDD-XXXX`, and a
successfully created batch is persisted with `expiry_date = received_at +
shelf_life_days` days, `version = 1` and `deleted_at = null`. -/
theorem createBatch_validates_and_computes (now : Int) (s : Store)
    (code : String) (received_at shelf_life_days : Int)
    (volume_liters fat_percent : ℚ) :
    (batchCodeMatches code = false →
      (createBatch now s code received_at shelf_life_days volume_liters
        fat_percent).1 = .error .validation) ∧
    (∀ b s', createBatch now s code received_at shelf_life_days volume_liters
        fat_percent = (.ok b, s') →
      batchCodeMatches code = true ∧
      b.expiry_date = received_at + shelf_life_days * 86400 ∧
      b.version = 1 ∧ b.deleted_at = none ∧ b ∈ s'.batches) := by
  constructor
  · intro hbad
    unfold createBatch
    rw [if_pos (by simp [hbad])]
  · intro b s' hok
    obtain ⟨hcode, _, _, _, _, _, hb, hs⟩ := createBatch_ok hok
    subst hs
    refine ⟨hcode, by rw [hb], by rw [hb], by rw [hb], ?_⟩
    exact List.mem_append_right _ (List.mem_singleton_self b)

unseal Rat.add Rat.sub in
/-- Witness for C7 (the spec scenario): code SCH-20251204-0001 received at
2025-12-04T08:30:00Z with shelf life 7 yields expiry 2025-12-11T08:30:00Z
(epoch 1765441800), version 1, no deletion mark; a malformed code is
rejected at validation. -/
theorem createBatch_validates_and_computes_witness :
    createBatch t0 emptyStore "SCH-20251204-0001" t0 7 1000 3 =
      (.ok bC7, sC7) ∧
    bC7.expiry_date = 1765441800 ∧ bC7.version = 1 ∧ bC7.deleted_at = none ∧
    bC7 ∈ sC7.batches ∧
    (createBatch t0 emptyStore "MILK-001" t0 7 1000 3).1 =
      .error .validation := by
  have h := (createBatch_validates_and_computes t0 emptyStore
    "SCH-20251204-0001" t0 7 1000 3).2 bC7 sC7 (by decide)
  refine ⟨by decide, ?_, ?_, ?_, ?_,
    (createBatch_validates_and_computes t0 emptyStore "MILK-001" t0 7 1000
      3).1 (by decide)⟩
  exacts [by rw [h.2.1]; decide, h.2.2.1, h.2.2.2.1, h.2.2.2.2]

theorem get_near_expiry_perm (now : Int) (s : Store) (n_days : Nat) :
    (get_near_expiry now s n_days).Perm (s.batches.filter (fun b =>
      (!b.is_deleted && decide (b.expiry_date ≤ now + (n_days : Int) * 86400))
        && decide (0 < b.available_liters (recordsFor s b.id)))) := by
  unfold get_near_expiry
  dsimp only
  refine ((List.perm_insertionSort expiryLE _).filter _).trans ?_
  rw [List.filter_filter]
  rw [List.filter_congr (fun x _ => by rw [Bool.and_comm])]

theorem mem_get_near_expiry_iff (now : Int) (s : Store) (n_days : Nat)
    (b : Batch) :
    b ∈ get_near_expiry now s n_days ↔
      b ∈ s.batches ∧ b.is_deleted = false ∧
      b.expiry_date ≤ now + (n_days : Int) * 86400 ∧
      0 < b.available_liters (recordsFor s b.id) := by
  rw [(get_near_expiry_perm now s n_days).mem_iff, List.mem_filter]
  simp [and_assoc]

theorem get_near_expiry_sorted (now : Int) (s : Store) (n_days : Nat) :
    List.Sorted expiryLE (get_near_expiry now s n_days) := by
  unfold get_near_expiry
  dsimp only
  exact List.Pairwise.sublist (List.filter_sublist _)
    (List.sorted_insertionSort expiryLE _)

/-- C8: `get_near_expiry(n)` returns exactly the batches that are not
soft-deleted, expire no later than `now + n` days, and still have
`available_liters > 0` (as a permutation of that filter of the stored
batches, so fully consumed and soft-deleted batches are excluded), ordered
by `expiry_date` ascending. -/
theorem get_near_expiry_exact (now : Int) (s : Store) (n_days : Nat) :
    (∀ b : Batch, b ∈ get_near_expiry now s n_days ↔
      b ∈ s.batches ∧ b.is_deleted = false ∧
      b.expiry_date ≤ now + (n_days : Int) * 86400 ∧
      0 < b.available_liters (recordsFor s b.id)) ∧
    (get_near_expiry now s n_days).Perm (s.batches.filter (fun b =>
      (!b.is_deleted && decide (b.expiry_date ≤ now + (n_days : Int) * 86400))
        && decide (0 < b.available_liters (recordsFor s b.id)))) ∧
    List.Sorted expiryLE (get_near_expiry now s n_days) :=
  ⟨fun b => mem_get_near_expiry_iff now s n_days b,
    get_near_expiry_perm now s n_days, get_near_expiry_sorted now s n_days⟩

/-- C9: `listReservations` on a batch id that matches no stored batch fails
with NotFound instead of returning a result. -/
theorem listReservations_unknown_batch (s : Store) (batch_id : Nat)
    (h : ∀ b ∈ s.batches, b.id ≠ batch_id) :
    listReservationsOp s batch_id = .error (.notFound batch_id) := by
  unfold listReservationsOp
  rw [if_neg]
  intro hc
  rw [List.any_eq_true] at hc
  obtain ⟨b, hb, hbid⟩ := hc
  exact h b hb (by simpa using hbid)

/-- Witness for C9: listing reservations of batch 1 on the empty store
fails with NotFound. -/
theorem listReservations_unknown_batch_witness :
    listReservationsOp emptyStore 1 = .error (.notFound 1) :=
  listReservations_unknown_batch emptyStore 1
    (fun b hb => absurd hb (List.not_mem_nil b))

/-- C10: an active batch with positive available volume whose expiry date
already lies in the past is included by `get_near_expiry(n)` for every
valid `n` — the near-expiry window has only an upper bound. -/
theorem near_expiry_includes_already_expired (now : Int) (s : Store)
    (n_days : Nat) (b : Batch) (hmem : b ∈ s.batches)
    (hdel : b.deleted_at = none)
    (havail : 0 < b.available_liters (recordsFor s b.id))
    (hexp : b.is_expired now = true)
    (hn1 : 1 ≤ n_days) (_hn2 : n_days ≤ 365) :
    b ∈ get_near_expiry now s n_days := by
  rw [mem_get_near_expiry_iff]
  refine ⟨hmem, by simp [Batch.is_deleted, hdel], ?_, havail⟩
  have hlt : b.expiry_date < now := by
    simpa [Batch.is_expired] using hexp
  have hpos : (0 : Int) ≤ (n_days : Int) * 86400 := by positivity
  linarith

/-- Witness for C10: the batch expired one second before `t0` with 100 L
still available is returned by the 30-day near-expiry query. -/
theorem near_expiry_includes_already_expired_witness :
    { b1 with expiry_date := t0 - 1 } ∈ get_near_expiry t0 sExp 30 :=
  near_expiry_includes_already_expired t0 sExp 30
    { b1 with expiry_date := t0 - 1 }
    (by simp [sExp]) (by decide) (by decide) (by decide) (by decide)
    (by decide)

end BatchInventory
